import Mathlib

/- Verification of the Input/Field/Connection composition model
(src/core/input.ts) and the Grid overlay of scratch-blocks-modernized, as a
shallow embedding: JavaScript object mutation is modelled by explicit state
passing, thrown exceptions by error results paired with the state at throw
time, and calls into external collaborators (renderer, DOM, field and
connection teardown) by an effect trace. -/

namespace ScratchBlocks

/-- Blocks are external collaborators; only the pieces Input reads or writes
are modelled: the `rendered` flag, the svg-root display style that the
visibility cascade toggles, and an id so distinct blocks can be told apart. -/
structure Block where
  id : Nat
  rendered : Bool
  displayStyle : String
deriving DecidableEq, Repr

/-- Connection is an external collaborator (its source file is not part of
this model); its surface is modelled from the spec: an accepted-type set
(`check`), an optional linked child block, a hidden flag driven by
hideAll/unhideAll, the block list unhideAll reports for re-render, and a
disposed flag. -/
structure Connection where
  check : Option (List String)
  targetBlock : Option Block
  hidden : Bool
  unhideRenderList : List Block
  disposed : Bool
deriving DecidableEq, Repr

/-- Modelled from the spec: Connection.setCheck replaces the connection's
accepted-type set (src/core/connection.ts is not available). -/
def Connection.setCheck (c : Connection) (check : Option (List String)) :
    Connection :=
  { c with check := check }

/-- Modelled from the spec: hideAll hides the connection and its transitive
sub-tree; only the connection's own hidden flag is observable here. -/
def Connection.hideAll (c : Connection) : Connection :=
  { c with hidden := true }

/-- Modelled from the spec: unhideAll reveals the connection and its
sub-tree and returns the list of blocks that need re-rendering. -/
def Connection.unhideAll (c : Connection) : Connection × List Block :=
  ({ c with hidden := false }, c.unhideRenderList)

/-- Modelled from the spec: Connection.dispose tears the connection down. -/
def Connection.dispose (c : Connection) : Connection :=
  { c with disposed := true }

/-- The non-recursive data of a Field (external collaborator, lifecycle
contract modelled from the spec): its name, label text, bound source block,
and initialized/visible/disposed flags. -/
structure FieldCore where
  id : Nat
  text : String
  name : Option String
  sourceBlockId : Option Nat
  initialized : Bool
  visible : Bool
  disposed : Bool
deriving DecidableEq, Repr

/-- A Field together with its optional self-declared prefix and suffix
fields (`field.prefixField`, `field.suffixField` in the source). -/
inductive Field : Type where
  | mk (core : FieldCore) (prefixField : Option Field)
      (suffixField : Option Field)

def Field.core : Field → FieldCore
  | .mk c _ _ => c

def Field.prefixField : Field → Option Field
  | .mk _ p _ => p

def Field.suffixField : Field → Option Field
  | .mk _ _ s => s

def Field.name (f : Field) : Option String := f.core.name

def Field.disposed (f : Field) : Bool := f.core.disposed

/-- field.setSourceBlock(block) — binds the field to the owning block. -/
def Field.setSourceBlock : Field → Option Nat → Field
  | .mk c p s, b => .mk { c with sourceBlockId := b } p s

/-- field.init() — materializes the field's widgets (modelled as a flag). -/
def Field.init : Field → Field
  | .mk c p s => .mk { c with initialized := true } p s

/-- field.name = opt_name — the unconditional name assignment performed by
insertFieldAt (src/core/input.ts line 123). -/
def Field.setName : Field → Option String → Field
  | .mk c p s, n => .mk { c with name := n } p s

/-- field.setVisible(visible). -/
def Field.setVisible : Field → Bool → Field
  | .mk c p s, b => .mk { c with visible := b } p s

/-- field.dispose(). -/
def Field.dispose : Field → Field
  | .mk c p s => .mk { c with disposed := true } p s

/-- new Blockly.FieldLabel(text) — the read-only label field generated when
insertFieldAt is given a plain string. -/
def fieldLabel (text : String) : Field :=
  .mk { id := 0, text := text, name := none, sourceBlockId := none,
        initialized := false, visible := true, disposed := false } none none

/-- The three input kinds (the ConnectionType values used for inputs;
modelled from the spec since src/core/constants.ts is not available). -/
inductive ConnectionType : Type where
  | inputValue
  | nextStatement
  | dummyInput
deriving DecidableEq, Repr

/-- Field alignment constants (Blockly.ALIGN_LEFT and friends). -/
inductive Align : Type where
  | left
  | centre
  | right
deriving DecidableEq, Repr

/-- The Input state: kind, name, owning block (sourceBlock_, null after
dispose), optional connection, field row, whether an outline path element
exists, alignment, and the visible_ flag. -/
structure Input where
  type : ConnectionType
  name : String
  sourceBlock : Option Block
  connection : Option Connection
  fieldRow : List Field
  outlinePath : Bool
  align : Align
  visible : Bool

/-- The Input constructor: throws when a non-dummy input has an empty
(falsy) name, otherwise constructs the input with an empty field row,
default alignment, and visible_ = true. -/
def Input.new (type : ConnectionType) (name : String) (block : Block)
    (connection : Option Connection) : Except String Input :=
  if type ≠ ConnectionType.dummyInput ∧ name = "" then
    .error "Value inputs and statement inputs must have non-empty name."
  else
    .ok { type := type, name := name, sourceBlock := some block,
          connection := connection, fieldRow := [], outlinePath := false,
          align := Align.left, visible := true }

/-- Calls made into external collaborators (DOM node removal, field and
connection teardown, the hide/unhide cascade, rendering), recorded as an
effect trace. -/
inductive Eff : Type where
  | removeNode
  | fieldDisposed (f : Field)
  | connDisposed
  | connHideAll
  | connUnhideAll
  | render
  | bumpNeighbours

/-- The `field` argument of insertFieldAt/appendField: a plain string, an
actual Field, or a null/undefined value. -/
inductive FieldArg : Type where
  | str (s : String)
  | fld (f : Field)
  | null

/-- JavaScript falsiness of the field argument (empty string, null and
undefined are falsy; a Field object is always truthy). -/
def FieldArg.falsy : FieldArg → Bool
  | .str s => s = ""
  | .fld _ => false
  | .null => true

/-- JavaScript falsiness of the optional opt_name argument (undefined or
the empty string). -/
def optNameFalsy : Option String → Bool
  | none => true
  | some s => s = ""

/-- The mutations insertFieldAt applies to a field before splicing it into
the row (src lines 119-123): bind to the source block, init when the block
is rendered, overwrite the name unconditionally. -/
def insertedForm (f : Field) (sb : Block) (nm : Option String) : Field :=
  Field.setName
    (if sb.rendered then Field.init (Field.setSourceBlock f (some sb.id))
     else Field.setSourceBlock f (some sb.id)) nm

/-- The body of insertFieldAt for an actual Field argument, mirroring the
source statement by statement: bounds check, then the setSourceBlock /
init-when-rendered / name-assignment mutations (`insertedForm`), recursive
prefix insertion (with no opt_name), splice at the running index,
increment, recursive suffix insertion (with no opt_name).  The four cases
only spell out the source's two `if (field.prefixField)` /
`if (field.suffixField)` branches.  The index is a Nat because every call
the source makes with a Field argument has already passed the `index < 0`
check.  The trailing render()/bumpNeighbours_() calls touch no modelled
state.  A thrown exception propagates together with the state at throw
time. -/
def insertFieldF : Input → Nat → Field → Option String →
    Input × Except String Nat
  | inp, i, .mk core none none, nm =>
    if inp.fieldRow.length < i then (inp, .error "index out of bounds.")
    else
      match inp.sourceBlock with
      | none => (inp, .error "TypeError: this.sourceBlock_ is null")
      | some sb =>
        let f3 := insertedForm (.mk core none none) sb nm
        ({ inp with fieldRow := inp.fieldRow.take i ++ f3 :: inp.fieldRow.drop i },
         .ok (i + 1))
  | inp, i, .mk core (some p) none, nm =>
    if inp.fieldRow.length < i then (inp, .error "index out of bounds.")
    else
      match inp.sourceBlock with
      | none => (inp, .error "TypeError: this.sourceBlock_ is null")
      | some sb =>
        let f3 := insertedForm (.mk core (some p) none) sb nm
        match insertFieldF inp i p none with
        | (inp1, .error e) => (inp1, .error e)
        | (inp1, .ok i1) =>
          ({ inp1 with
              fieldRow := inp1.fieldRow.take i1 ++ f3 :: inp1.fieldRow.drop i1 },
           .ok (i1 + 1))
  | inp, i, .mk core none (some s), nm =>
    if inp.fieldRow.length < i then (inp, .error "index out of bounds.")
    else
      match inp.sourceBlock with
      | none => (inp, .error "TypeError: this.sourceBlock_ is null")
      | some sb =>
        let f3 := insertedForm (.mk core none (some s)) sb nm
        insertFieldF
          { inp with fieldRow := inp.fieldRow.take i ++ f3 :: inp.fieldRow.drop i }
          (i + 1) s none
  | inp, i, .mk core (some p) (some s), nm =>
    if inp.fieldRow.length < i then (inp, .error "index out of bounds.")
    else
      match inp.sourceBlock with
      | none => (inp, .error "TypeError: this.sourceBlock_ is null")
      | some sb =>
        let f3 := insertedForm (.mk core (some p) (some s)) sb nm
        match insertFieldF inp i p none with
        | (inp1, .error e) => (inp1, .error e)
        | (inp1, .ok i1) =>
          insertFieldF
            { inp1 with
                fieldRow := inp1.fieldRow.take i1 ++ f3 :: inp1.fieldRow.drop i1 }
            (i1 + 1) s none

/-- One of the two kinds of value insertFieldAt can return: the numeric
index following the last inserted field, or — in the falsy-field no-op
branch — the Input itself (`return this` in the source, despite the
documented number return type). -/
inductive InsertResult : Type where
  | self
  | index (n : Nat)

/-- Blockly.Input.prototype.insertFieldAt: bounds check (out-of-bounds
throw), the falsy no-op branch returning `this`, string-to-FieldLabel
conversion, then the Field insertion body `insertFieldF`.  A null field
with a truthy name passes the no-op check and crashes at
field.setSourceBlock (a TypeError), before any mutation. -/
def Input.insertFieldAt (inp : Input) (index : Int) (field : FieldArg)
    (nm : Option String) : Input × Except String InsertResult :=
  if index < 0 ∨ (inp.fieldRow.length : Int) < index then
    (inp, .error "index out of bounds.")
  else if FieldArg.falsy field ∧ optNameFalsy nm then
    (inp, .ok InsertResult.self)
  else
    match field with
    | .null => (inp, .error "TypeError: field is null")
    | .str s =>
      match insertFieldF inp index.toNat (fieldLabel s) nm with
      | (inp1, .ok i1) => (inp1, .ok (InsertResult.index i1))
      | (inp1, .error e) => (inp1, .error e)
    | .fld f =>
      match insertFieldF inp index.toNat f nm with
      | (inp1, .ok i1) => (inp1, .ok (InsertResult.index i1))
      | (inp1, .error e) => (inp1, .error e)

/-- Blockly.Input.prototype.appendField: insertFieldAt at the end of the
row, returning `this` (here: the updated state, with a thrown exception
propagated). -/
def Input.appendField (inp : Input) (field : FieldArg) (nm : Option String) :
    Input × Except String Unit :=
  match inp.insertFieldAt (inp.fieldRow.length : Int) field nm with
  | (inp1, .ok _) => (inp1, .ok ())
  | (inp1, .error e) => (inp1, .error e)

/-- The scan of removeField: find the first field in row order whose name
strictly equals the requested name; return it and the row with it spliced
out, or none when no field matches. -/
def removeFromRow (name : String) : List Field → Option (Field × List Field)
  | [] => none
  | f :: rest =>
    if f.name = some name then some (f, rest)
    else
      match removeFromRow name rest with
      | some (g, l) => some (g, f :: l)
      | none => none

/-- Blockly.Input.prototype.removeField: dispose and splice out the first
field with the given name, then render and bump neighbours when the block
is rendered; an assertion failure (throw) when no field matches. -/
def Input.removeField (inp : Input) (name : String) :
    Input × List Eff × Except String Unit :=
  match removeFromRow name inp.fieldRow with
  | none => (inp, [], .error "Field not found.")
  | some (f, row1) =>
    match inp.sourceBlock with
    | none =>
      ({ inp with fieldRow := row1 }, [Eff.fieldDisposed f],
       .error "TypeError: this.sourceBlock_ is null")
    | some sb =>
      ({ inp with fieldRow := row1 },
       Eff.fieldDisposed f ::
         (if sb.rendered then [Eff.render, Eff.bumpNeighbours] else []),
       .ok ())

/-- Blockly.Input.prototype.isVisible. -/
def Input.isVisible (inp : Input) : Bool := inp.visible

/-- Blockly.Input.prototype.setVisible: a no-op when the requested state
equals the current one; otherwise flips visible_, propagates visibility to
every field in the row, and, when a connection exists, unhideAll
(collecting the render list) or hideAll, then sets the linked child
block's display style and, when hiding, clears the child's rendered flag.
Returns the updated state, the trace of collaborator calls, and the render
list the source returns. -/
def Input.setVisible (inp : Input) (visible : Bool) :
    Input × List Eff × List Block :=
  if inp.visible = visible then (inp, [], [])
  else
    let display := if visible then "block" else "none"
    let base : Input :=
      { inp with visible := visible,
                 fieldRow := inp.fieldRow.map (fun f => f.setVisible visible) }
    match inp.connection with
    | none => (base, [], [])
    | some conn =>
      let hid : Connection × List Eff × List Block :=
        if visible then
          ((Connection.unhideAll conn).1, [Eff.connUnhideAll],
           (Connection.unhideAll conn).2)
        else (Connection.hideAll conn, [Eff.connHideAll], [])
      match hid with
      | (conn1, tr, renderList) =>
        match conn1.targetBlock with
        | none => ({ base with connection := some conn1 }, tr, renderList)
        | some child =>
          let child1 : Block :=
            if visible then { child with displayStyle := display }
            else { child with displayStyle := display, rendered := false }
          ({ base with connection := some { conn1 with targetBlock := some child1 } },
           tr, renderList)

/-- Blockly.Input.prototype.setCheck: throws when the input has no
connection, otherwise delegates to the connection's setCheck and returns
the input itself ("this", i.e. the updated state). -/
def Input.setCheck (inp : Input) (check : Option (List String)) :
    Except String Input :=
  match inp.connection with
  | none => .error "This input does not have a connection."
  | some c => .ok { inp with connection := some (c.setCheck check) }

/-- Blockly.Input.prototype.dispose: removes the outline node when present,
disposes every field in the row (the row keeps its entries), disposes the
connection when present (the reference is kept), and nulls the
owning-block reference.  Nothing resets fieldRow, connection or
outlinePath. -/
def Input.dispose (inp : Input) : Input × List Eff :=
  let tr0 : List Eff := if inp.outlinePath then [Eff.removeNode] else []
  let tr1 : List Eff := inp.fieldRow.map (fun f => Eff.fieldDisposed f)
  let row1 : List Field := inp.fieldRow.map Field.dispose
  match inp.connection with
  | some c =>
    ({ inp with fieldRow := row1, connection := some (Connection.dispose c),
                sourceBlock := none },
     tr0 ++ tr1 ++ [Eff.connDisposed])
  | none =>
    ({ inp with fieldRow := row1, sourceBlock := none }, tr0 ++ tr1)

/-- The grid's SVG pattern element: the attributes update sets. -/
structure GridPattern where
  width : Option ℚ
  height : Option ℚ
deriving DecidableEq, Repr

/-- One grid line element: the attributes setLineAttributes_ sets. -/
structure GridLine where
  strokeWidth : Option ℚ
  x1 : Option ℚ
  y1 : Option ℚ
  x2 : Option ℚ
  y2 : Option ℚ
deriving DecidableEq, Repr

/-- The Grid state: pattern element, spacing and length options, snap flag,
the two optional line elements, and the current scale. -/
structure Grid where
  gridPattern : GridPattern
  spacing : ℚ
  length : ℚ
  snapToGrid : Bool
  line1 : Option GridLine
  line2 : Option GridLine
  scale : ℚ
deriving DecidableEq, Repr

/-- Grid.prototype.setLineAttributes_: set stroke width and endpoints when
the line element exists. -/
def setLineAttributes (line : Option GridLine) (width x1 x2 y1 y2 : ℚ) :
    Option GridLine :=
  match line with
  | none => none
  | some l =>
    some { l with strokeWidth := some width, x1 := some x1, y1 := some y1,
                  x2 := some x2, y2 := some y2 }

/-- Grid.prototype.update: store the scale, set the pattern tile width and
height to spacing*scale — substituting 100 when that product is zero (the
`|| 100` in the source) — and recompute both lines from
half = floor(spacing/2) + 0.5 and start/end = half ∓ length/2, all scaled. -/
def Grid.update (g : Grid) (scale : ℚ) : Grid :=
  let safeSpacing : ℚ :=
    if g.spacing * scale = 0 then 100 else g.spacing * scale
  let half : ℚ := (Rat.floor (g.spacing / 2) : ℚ) + 1 / 2
  let start : ℚ := half - g.length / 2
  let finish : ℚ := half + g.length / 2
  let half2 := half * scale
  let start2 := start * scale
  let finish2 := finish * scale
  { g with
      scale := scale,
      gridPattern := { width := some safeSpacing, height := some safeSpacing },
      line1 := setLineAttributes g.line1 scale start2 finish2 half2 half2,
      line2 := setLineAttributes g.line2 scale half2 half2 start2 finish2 }

/-- The contiguous segment of row entries one insertFieldAt call with field
f produces: recursively inserted prefix entries, the field itself (in its
inserted form), then recursively inserted suffix entries. -/
def insertedSeg : Field → Block → Option String → List Field
  | .mk core none none, sb, nm => [insertedForm (.mk core none none) sb nm]
  | .mk core (some p) none, sb, nm =>
    insertedSeg p sb none ++ [insertedForm (.mk core (some p) none) sb nm]
  | .mk core none (some s), sb, nm =>
    insertedForm (.mk core none (some s)) sb nm :: insertedSeg s sb none
  | .mk core (some p) (some s), sb, nm =>
    insertedSeg p sb none ++
      insertedForm (.mk core (some p) (some s)) sb nm :: insertedSeg s sb none

/-- A concrete block that is not attached to a rendering surface. -/
def cBlock : Block := { id := 1, rendered := false, displayStyle := "block" }

/-- A concrete field named "F". -/
def cField : Field :=
  .mk { id := 7, text := "t", name := some "F", sourceBlockId := some 1,
        initialized := false, visible := true, disposed := false } none none

/-- A concrete connection with no linked child. -/
def cConnection : Connection :=
  { check := none, targetBlock := none, hidden := false,
    unhideRenderList := [], disposed := false }

/-- A concrete dummy input owning one field and a connection. -/
def cInput : Input :=
  { type := ConnectionType.dummyInput, name := "", sourceBlock := some cBlock,
    connection := some cConnection, fieldRow := [cField],
    outlinePath := false, align := Align.left, visible := true }

/-- A concrete input with no connection. -/
def cInputNoConn : Input := { cInput with connection := none }

/-- A concrete rendered child block. -/
def cChild : Block := { id := 2, rendered := true, displayStyle := "block" }

/-- A concrete connection with a linked child block. -/
def cConnChild : Connection :=
  { check := none, targetBlock := some cChild, hidden := false,
    unhideRenderList := [], disposed := false }

/-- A concrete visible input owning a connection with a linked child. -/
def cInputChild : Input := { cInput with connection := some cConnChild }

/-- A concrete field declared as a prefix, itself declaring none. -/
def cPre : Field :=
  .mk { id := 8, text := "p", name := some "P", sourceBlockId := none,
        initialized := false, visible := true, disposed := false } none none

/-- A concrete field declared as a suffix, itself declaring none. -/
def cSuf : Field :=
  .mk { id := 9, text := "s", name := some "S", sourceBlockId := none,
        initialized := false, visible := true, disposed := false } none none

/-- A concrete field declaring both a prefix and a suffix field. -/
def cCombo : Field :=
  .mk { id := 10, text := "c", name := some "C", sourceBlockId := none,
        initialized := false, visible := true, disposed := false }
    (some cPre) (some cSuf)

/-- A concrete grid with zero spacing and zero length and both lines
present. -/
def cGrid : Grid :=
  { gridPattern := { width := none, height := none }, spacing := 0,
    length := 0, snapToGrid := false,
    line1 := some { strokeWidth := none, x1 := none, y1 := none,
                    x2 := none, y2 := none },
    line2 := some { strokeWidth := none, x1 := none, y1 := none,
                    x2 := none, y2 := none },
    scale := 1 }

theorem length_take_of_le {α : Type} (l : List α) (i : Nat) (hi : i ≤ l.length) :
    (l.take i).length = i := by
  simp [Nat.min_eq_left hi]

theorem take_append2 {α : Type} (l1 m l2 : List α) :
    (l1 ++ (m ++ l2)).take (l1.length + m.length) = l1 ++ m := by
  rw [← List.length_append, ← List.append_assoc, List.take_left]

theorem drop_append2 {α : Type} (l1 m l2 : List α) :
    (l1 ++ (m ++ l2)).drop (l1.length + m.length) = l2 := by
  rw [← List.length_append, ← List.append_assoc, List.drop_left]

/-- Evaluation of the insertion body on a decomposed row: with a live
owning block, inserting field f at index l1.length into the row l1 ++ l2
splices exactly the segment `insertedSeg f sb nm` between l1 and l2 and
returns the index just past that segment. -/
theorem insertFieldF_split :
    ∀ (f : Field) (inp : Input) (l1 l2 : List Field) (nm : Option String)
      (sb : Block), inp.sourceBlock = some sb → inp.fieldRow = l1 ++ l2 →
      insertFieldF inp l1.length f nm =
        ({ inp with fieldRow := l1 ++ (insertedSeg f sb nm ++ l2) },
         Except.ok (l1.length + (insertedSeg f sb nm).length))
  | .mk core none none, inp, l1, l2, nm, sb, hsb, hrow => by
    have hlen : ¬ inp.fieldRow.length < l1.length := by
      simp only [hrow, List.length_append]; omega
    simp [insertFieldF, hlen, hsb, hrow, List.take_left, List.drop_left,
      insertedSeg]
  | .mk core (some p) none, inp, l1, l2, nm, sb, hsb, hrow => by
    have hlen : ¬ inp.fieldRow.length < l1.length := by
      simp only [hrow, List.length_append]; omega
    have ihp := insertFieldF_split p inp l1 l2 none sb hsb hrow
    simp [insertFieldF, hlen, hsb, ihp, take_append2, drop_append2,
      insertedSeg, List.append_assoc, Nat.add_assoc]
  | .mk core none (some s), inp, l1, l2, nm, sb, hsb, hrow => by
    have hlen : ¬ inp.fieldRow.length < l1.length := by
      simp only [hrow, List.length_append]; omega
    have ihs := insertFieldF_split s
      { inp with fieldRow := l1 ++
          insertedForm (Field.mk core none (some s)) sb nm :: l2 }
      (l1 ++ [insertedForm (Field.mk core none (some s)) sb nm]) l2 none sb
      (by simpa using hsb) (by simp)
    simp only [hsb, Nat.zero_add, Nat.add_zero, List.length_append,
      List.length_cons, List.length_nil, Nat.add_assoc, List.append_assoc,
      List.singleton_append] at ihs
    simp [insertFieldF, hlen, hsb, hrow, List.take_left, List.drop_left,
      insertedSeg, ihs, List.append_assoc, Nat.add_assoc, Nat.add_comm,
      Nat.add_left_comm]
  | .mk core (some p) (some s), inp, l1, l2, nm, sb, hsb, hrow => by
    have hlen : ¬ inp.fieldRow.length < l1.length := by
      simp only [hrow, List.length_append]; omega
    have ihp := insertFieldF_split p inp l1 l2 none sb hsb hrow
    have ihs := insertFieldF_split s
      { inp with fieldRow := (l1 ++ insertedSeg p sb none) ++
          insertedForm (Field.mk core (some p) (some s)) sb nm :: l2 }
      ((l1 ++ insertedSeg p sb none) ++
        [insertedForm (Field.mk core (some p) (some s)) sb nm]) l2 none sb
      (by simpa using hsb) (by simp)
    simp only [hsb, Nat.zero_add, Nat.add_zero, List.length_append,
      List.length_cons, List.length_nil, Nat.add_assoc, List.append_assoc,
      List.singleton_append, Nat.add_comm, Nat.add_left_comm] at ihs
    simp [insertFieldF, hlen, hsb, ihp, take_append2, drop_append2,
      insertedSeg, ihs, List.append_assoc, Nat.add_assoc, Nat.add_comm,
      Nat.add_left_comm]

/-- Evaluation of the insertion body at an arbitrary in-bounds index:
the row gains exactly `insertedSeg f sb nm` at position i and the returned
index is just past it. -/
theorem insertFieldF_eq (f : Field) (inp : Input) (i : Nat)
    (nm : Option String) (sb : Block) (hsb : inp.sourceBlock = some sb)
    (hi : i ≤ inp.fieldRow.length) :
    insertFieldF inp i f nm =
      ({ inp with fieldRow :=
           inp.fieldRow.take i ++ (insertedSeg f sb nm ++ inp.fieldRow.drop i) },
       Except.ok (i + (insertedSeg f sb nm).length)) := by
  have h := insertFieldF_split f inp (inp.fieldRow.take i)
    (inp.fieldRow.drop i) nm sb hsb (List.take_append_drop i inp.fieldRow).symm
  rw [length_take_of_le inp.fieldRow i hi] at h
  simpa [List.take_append_drop] using h

theorem name_insertedForm (f : Field) (sb : Block) (nm : Option String) :
    (insertedForm f sb nm).name = nm := by
  cases f with
  | mk c p s =>
    cases h : sb.rendered <;>
      simp [insertedForm, h, Field.setName, Field.init, Field.setSourceBlock,
        Field.name, Field.core]

theorem disposed_dispose (f : Field) : (Field.dispose f).disposed = true := by
  cases f with
  | mk c p s => rfl

/-- Every row entry produced by one insertion call carries either the name
passed for the top-level field or none (the recursive prefix/suffix calls
pass no name). -/
theorem insertedSeg_names :
    ∀ (f : Field) (sb : Block) (nm : Option String) (g : Field),
      g ∈ insertedSeg f sb nm → g.name = nm ∨ g.name = none
  | .mk core none none, sb, nm, g, hg => by
    simp [insertedSeg] at hg
    subst hg
    exact Or.inl (name_insertedForm _ sb nm)
  | .mk core (some p) none, sb, nm, g, hg => by
    simp [insertedSeg] at hg
    rcases hg with h | h
    · rcases insertedSeg_names p sb none g h with h1 | h1 <;> exact Or.inr h1
    · subst h; exact Or.inl (name_insertedForm _ sb nm)
  | .mk core none (some s), sb, nm, g, hg => by
    simp [insertedSeg] at hg
    rcases hg with h | h
    · subst h; exact Or.inl (name_insertedForm _ sb nm)
    · rcases insertedSeg_names s sb none g h with h1 | h1 <;> exact Or.inr h1
  | .mk core (some p) (some s), sb, nm, g, hg => by
    simp [insertedSeg] at hg
    rcases hg with h | h | h
    · rcases insertedSeg_names p sb none g h with h1 | h1 <;> exact Or.inr h1
    · subst h; exact Or.inl (name_insertedForm _ sb nm)
    · rcases insertedSeg_names s sb none g h with h1 | h1 <;> exact Or.inr h1

/-- Evaluation of insertFieldAt on an actual Field argument with an
in-bounds index. -/
theorem insertFieldAt_fld (inp : Input) (sb : Block) (i : Nat) (f : Field)
    (nm : Option String) (hsb : inp.sourceBlock = some sb)
    (hi : i ≤ inp.fieldRow.length) :
    inp.insertFieldAt (i : Int) (.fld f) nm =
      ({ inp with fieldRow :=
           inp.fieldRow.take i ++ (insertedSeg f sb nm ++ inp.fieldRow.drop i) },
       Except.ok (InsertResult.index (i + (insertedSeg f sb nm).length))) := by
  have hcond : ¬ ((i : Int) < 0 ∨ (inp.fieldRow.length : Int) < (i : Int)) := by
    omega
  simp [Input.insertFieldAt, hcond, FieldArg.falsy, Int.toNat_natCast,
    insertFieldF_eq f inp i nm sb hsb hi]
  exact hi

/-- C7: constructing a ValueInput or StatementInput with an empty name
fails; constructing a DummyInput with an empty name succeeds. -/
theorem input_new_empty_name (block : Block) (conn : Option Connection) :
    Input.new ConnectionType.inputValue "" block conn =
      Except.error "Value inputs and statement inputs must have non-empty name." ∧
    Input.new ConnectionType.nextStatement "" block conn =
      Except.error "Value inputs and statement inputs must have non-empty name." ∧
    Input.new ConnectionType.dummyInput "" block conn =
      Except.ok { type := ConnectionType.dummyInput, name := "",
                  sourceBlock := some block, connection := conn,
                  fieldRow := [], outlinePath := false, align := Align.left,
                  visible := true } := by
  refine ⟨?_, ?_, ?_⟩ <;> simp [Input.new]

/-- C8: an out-of-range index makes insertFieldAt fail with the
out-of-bounds error, and the state — field row and connection included —
is returned unchanged: no mutation happens before the check. -/
theorem insertFieldAt_out_of_range (inp : Input) (i : Int) (field : FieldArg)
    (nm : Option String) (h : i < 0 ∨ (inp.fieldRow.length : Int) < i) :
    inp.insertFieldAt i field nm =
      (inp, Except.error "index out of bounds.") := by
  simp only [Input.insertFieldAt]
  rw [if_pos h]

/-- C8 witness: index -1 on a concrete input. -/
theorem insertFieldAt_out_of_range_witness :
    cInput.insertFieldAt (-1) FieldArg.null none =
      (cInput, Except.error "index out of bounds.") :=
  insertFieldAt_out_of_range cInput (-1) FieldArg.null none (by decide)

/-- C2: with an in-range index, a falsy field and a falsy opt_name,
insertFieldAt inserts nothing and leaves the state unchanged, but returns
the Input itself (the source's `return this`), not the numeric index that
the claim and the function's own JSDoc (@return number) promise. -/
theorem insertFieldAt_falsy_returns_self (inp : Input) (i : Int)
    (field : FieldArg) (nm : Option String) (h0 : 0 ≤ i)
    (h1 : i ≤ (inp.fieldRow.length : Int)) (hf : FieldArg.falsy field = true)
    (hn : optNameFalsy nm = true) :
    inp.insertFieldAt i field nm = (inp, Except.ok InsertResult.self) := by
  have hcond : ¬ (i < 0 ∨ (inp.fieldRow.length : Int) < i) := by omega
  simp [Input.insertFieldAt, hcond, hf, hn]

/-- C2 witness: index 0, null field, no name, on a concrete input. -/
theorem insertFieldAt_falsy_returns_self_witness :
    cInput.insertFieldAt 0 FieldArg.null none =
      (cInput, Except.ok InsertResult.self) :=
  insertFieldAt_falsy_returns_self cInput 0 FieldArg.null none (by decide)
    (by decide) (by decide) (by decide)

/-- C3: inserting a field that declares a one-level prefix field and a
one-level suffix field at an in-range index i into a row of length n
produces a row of length n+3 whose entries at positions i, i+1 and i+2 are
the prefix, the field and the suffix (each in the in-place-mutated form
`insertedForm` that insertFieldAt gives every inserted field object), and
returns i+3. -/
theorem insertFieldAt_prefix_suffix (inp : Input) (sb : Block) (i : Nat)
    (f pre suf : Field) (nm : Option String)
    (hsb : inp.sourceBlock = some sb) (hi : i ≤ inp.fieldRow.length)
    (hf : f.prefixField = some pre ∧ f.suffixField = some suf)
    (hp : pre.prefixField = none ∧ pre.suffixField = none)
    (hs : suf.prefixField = none ∧ suf.suffixField = none) :
    (inp.insertFieldAt (i : Int) (.fld f) nm).1.fieldRow =
      inp.fieldRow.take i ++ (insertedForm pre sb none ::
        insertedForm f sb nm :: insertedForm suf sb none ::
          inp.fieldRow.drop i) ∧
    (inp.insertFieldAt (i : Int) (.fld f) nm).1.fieldRow.length =
      inp.fieldRow.length + 3 ∧
    (inp.insertFieldAt (i : Int) (.fld f) nm).1.fieldRow[i]? =
      some (insertedForm pre sb none) ∧
    (inp.insertFieldAt (i : Int) (.fld f) nm).1.fieldRow[i + 1]? =
      some (insertedForm f sb nm) ∧
    (inp.insertFieldAt (i : Int) (.fld f) nm).1.fieldRow[i + 2]? =
      some (insertedForm suf sb none) ∧
    (inp.insertFieldAt (i : Int) (.fld f) nm).2 =
      Except.ok (InsertResult.index (i + 3)) := by
  cases f with
  | mk core pre0 suf0 =>
    cases pre with
    | mk pcore pp ps =>
      cases suf with
      | mk score sp ss =>
        simp [Field.prefixField, Field.suffixField] at hf hp hs
        rw [hf.1, hf.2, hp.1, hp.2, hs.1, hs.2]
        have heq := insertFieldAt_fld inp sb i
          (.mk core (some (.mk pcore none none)) (some (.mk score none none)))
          nm hsb hi
        have hseg :
            insertedSeg
              (.mk core (some (.mk pcore none none))
                (some (.mk score none none))) sb nm =
              [insertedForm (.mk pcore none none) sb none,
               insertedForm
                 (.mk core (some (.mk pcore none none))
                   (some (.mk score none none))) sb nm,
               insertedForm (.mk score none none) sb none] := by
          simp [insertedSeg]
        rw [heq, hseg]
        have htk : (inp.fieldRow.take i).length = i :=
          length_take_of_le inp.fieldRow i hi
        refine ⟨by simp, by simp [htk]; omega, ?_, ?_, ?_, by simp⟩
        · rw [List.getElem?_append_right (by omega)]
          simp [htk]
        · rw [List.getElem?_append_right (by omega)]
          simp [htk]
        · rw [List.getElem?_append_right (by omega)]
          simp [htk]

/-- C3 witness: inserting the concrete prefix-and-suffix-declaring field
cCombo at index 0 of a one-field row. -/
theorem insertFieldAt_prefix_suffix_witness :
    (cInput.insertFieldAt 0 (.fld cCombo) none).1.fieldRow.length =
      cInput.fieldRow.length + 3 ∧
    (cInput.insertFieldAt 0 (.fld cCombo) none).2 =
      Except.ok (InsertResult.index 3) := by
  have h := insertFieldAt_prefix_suffix cInput cBlock 0 cCombo cPre cSuf none
    rfl (by decide) ⟨rfl, rfl⟩ ⟨rfl, rfl⟩ ⟨rfl, rfl⟩
  exact ⟨h.2.1, by simpa using h.2.2.2.2.2⟩

/-- C10: insertFieldAt always assigns its opt_name argument to the field:
with no name passed, a field that already carries a non-empty name is
stored with name overwritten to none, and every recursively inserted
prefix or suffix entry likewise ends up with name none — every row entry
the call adds has name none. -/
theorem insertFieldAt_overwrites_name (inp : Input) (sb : Block) (i : Nat)
    (f : Field) (s : String) (hsb : inp.sourceBlock = some sb)
    (hi : i ≤ inp.fieldRow.length) (hname : f.name = some s) (hs : s ≠ "") :
    (inp.insertFieldAt (i : Int) (.fld f) none).1.fieldRow =
      inp.fieldRow.take i ++ (insertedSeg f sb none ++ inp.fieldRow.drop i) ∧
    (∀ g ∈ insertedSeg f sb none, g.name = none) ∧
    (inp.insertFieldAt (i : Int) (.fld f) none).2 =
      Except.ok (InsertResult.index (i + (insertedSeg f sb none).length)) := by
  have heq := insertFieldAt_fld inp sb i f none hsb hi
  refine ⟨by rw [heq], ?_, by rw [heq]⟩
  intro g hg
  rcases insertedSeg_names f sb none g hg with h | h <;> exact h

/-- C10 witness: appending the named field cField with no name argument to
an input with an empty row. -/
theorem insertFieldAt_overwrites_name_witness :
    (cInputNoConn.insertFieldAt 0 (.fld cField) none).1.fieldRow =
      insertedSeg cField cBlock none ++ [cField] ∧
    (∀ g ∈ insertedSeg cField cBlock none, g.name = none) := by
  have h := insertFieldAt_overwrites_name cInputNoConn
    cBlock 0 cField "F" rfl (by decide) rfl (by decide)
  refine ⟨?_, h.2.1⟩
  have h1 := h.1
  simpa [cInputNoConn, cInput] using h1

theorem removeFromRow_eq_none (name : String) :
    ∀ (l : List Field), (∀ g ∈ l, g.name ≠ some name) →
      removeFromRow name l = none
  | [], _ => rfl
  | f :: rest, h => by
    have hf : ¬ (f.name = some name) := h f (by simp)
    simp [removeFromRow, hf,
      removeFromRow_eq_none name rest (fun g hg => h g (by simp [hg]))]

theorem removeFromRow_eq_some (name : String) :
    ∀ (l1 : List Field) (f : Field) (l2 : List Field),
      (∀ g ∈ l1, g.name ≠ some name) → f.name = some name →
      removeFromRow name (l1 ++ f :: l2) = some (f, l1 ++ l2)
  | [], f, l2, _, hf => by simp [removeFromRow, hf]
  | g :: rest, f, l2, h, hf => by
    have hg : ¬ (g.name = some name) := h g (by simp)
    simp [removeFromRow, hg,
      removeFromRow_eq_some name rest f l2 (fun x hx => h x (by simp [hx])) hf]

/-- C4: on a row containing a matching field, removeField removes the
first field (in row order) whose name matches exactly, disposes it exactly
once (the trace holds a single dispose event, for that field), and shrinks
the row by one; when no field matches, it fails with the not-found
assertion and leaves the state untouched. -/
theorem removeField_spec (inp : Input) (sb : Block) (name : String)
    (hsb : inp.sourceBlock = some sb) :
    (∀ l1 f l2, inp.fieldRow = l1 ++ f :: l2 →
      (∀ g ∈ l1, g.name ≠ some name) → f.name = some name →
      inp.removeField name =
        ({ inp with fieldRow := l1 ++ l2 },
         Eff.fieldDisposed f ::
           (if sb.rendered then [Eff.render, Eff.bumpNeighbours] else []),
         Except.ok ()) ∧
      (l1 ++ l2).length + 1 = inp.fieldRow.length) ∧
    ((∀ g ∈ inp.fieldRow, g.name ≠ some name) →
      inp.removeField name = (inp, [], Except.error "Field not found.")) := by
  constructor
  · intro l1 f l2 hrow h1 hf
    refine ⟨?_, by simp [hrow]; omega⟩
    simp [Input.removeField, hrow,
      removeFromRow_eq_some name l1 f l2 h1 hf, hsb]
  · intro h
    simp [Input.removeField, removeFromRow_eq_none name inp.fieldRow h]

/-- C4 witness: removing the unique field "F" from a concrete one-field
row, and failing to remove the absent name "G". -/
theorem removeField_spec_witness :
    (cInput.removeField "F" =
      ({ cInput with fieldRow := [] }, [Eff.fieldDisposed cField],
       Except.ok ()) ∧
     ([] : List Field).length + 1 = cInput.fieldRow.length) ∧
    cInput.removeField "G" = (cInput, [], Except.error "Field not found.") := by
  constructor
  · have h := (removeField_spec cInput cBlock "F" rfl).1 [] cField [] rfl
      (by simp) rfl
    simpa [cBlock] using h
  · exact (removeField_spec cInput cBlock "G" rfl).2
      (by intro g hg; simp [cInput] at hg; simp [hg, cField, Field.name, Field.core])

/-- C6: setCheck on an input with no connection fails with the
invalid-state error and changes nothing; on an input with a connection it
replaces the connection's accepted-type set with the given check and
returns the same input (identity chaining: every other component of the
returned input is the original one). -/
theorem setCheck_spec (inp : Input) (check : Option (List String)) :
    (inp.connection = none →
      inp.setCheck check =
        Except.error "This input does not have a connection.") ∧
    (∀ c, inp.connection = some c →
      inp.setCheck check =
        Except.ok { inp with connection := some { c with check := check } }) := by
  constructor
  · intro h
    simp [Input.setCheck, h]
  · intro c h
    simp [Input.setCheck, h, Connection.setCheck]

/-- C6 witness: a concrete input without a connection fails; a concrete
input with a connection gets its accepted types replaced. -/
theorem setCheck_spec_witness :
    cInputNoConn.setCheck (some ["Number"]) =
      Except.error "This input does not have a connection." ∧
    cInput.setCheck (some ["Number"]) =
      Except.ok { cInput with connection := some { cConnection with check := some ["Number"] } } :=
  ⟨(setCheck_spec cInputNoConn (some ["Number"])).1 rfl,
   (setCheck_spec cInput (some ["Number"])).2 cConnection rfl⟩

/-- C5: hiding a currently-visible input that owns a connection asks the
connection to hide itself and its transitive sub-tree (the hideAll call is
the only collaborator call in the trace, and the connection's hidden flag
is set) and returns an empty render list; when the connection has a linked
child block, the child's display style is set to none and its rendered
flag is cleared. -/
theorem setVisible_hide_spec (inp : Input) (conn : Connection)
    (hvis : inp.visible = true) (hconn : inp.connection = some conn) :
    (inp.setVisible false).2.2 = [] ∧
    (inp.setVisible false).2.1 = [Eff.connHideAll] ∧
    (conn.targetBlock = none →
      (inp.setVisible false).1.connection = some (Connection.hideAll conn)) ∧
    (∀ child, conn.targetBlock = some child →
      (inp.setVisible false).1.connection =
        some { conn with hidden := true, targetBlock := some { child with displayStyle := "none", rendered := false } }) := by
  rcases htb : conn.targetBlock with _ | child
  · refine ⟨?_, ?_, ?_, ?_⟩ <;>
      simp [Input.setVisible, hvis, hconn, Connection.hideAll, htb]
  · refine ⟨?_, ?_, ?_, ?_⟩ <;>
      simp [Input.setVisible, hvis, hconn, Connection.hideAll, htb]

/-- C5 witness: hiding a concrete visible input whose connection links a
rendered child block. -/
theorem setVisible_hide_spec_witness :
    (cInputChild.setVisible false).2.2 = [] ∧
    (cInputChild.setVisible false).2.1 = [Eff.connHideAll] ∧
    (cInputChild.setVisible false).1.connection =
      some { cConnChild with hidden := true, targetBlock := some { cChild with displayStyle := "none", rendered := false } } := by
  have h := setVisible_hide_spec cInputChild cConnChild rfl rfl
  exact ⟨h.1, h.2.1, h.2.2.2 cChild rfl⟩

/-- C1 counterexample: disposing a concrete input that has one field and a
connection leaves the field row non-empty and the connection reference
present — the row does not become empty and the connection reference does
not become null, against the claim. -/
theorem dispose_claim_counterexample :
    ¬ ((Input.dispose cInput).1.fieldRow = [] ∧
       (Input.dispose cInput).1.connection = none ∧
       (Input.dispose cInput).1.sourceBlock = none) := by
  intro h
  have hl : (Input.dispose cInput).1.fieldRow.length = 1 := rfl
  rw [h.1] at hl
  simp at hl

/-- C1 amended: after dispose() the owning-block reference is null, every
field in the row has been disposed (the row keeps its now-disposed entries
rather than becoming empty), and the connection, when present, has been
disposed while the reference to it is retained rather than nulled; the
effect trace is the outline removal, one dispose per field in row order,
then the connection dispose. -/
theorem dispose_spec (inp : Input) :
    (Input.dispose inp).1.sourceBlock = none ∧
    (Input.dispose inp).1.fieldRow = inp.fieldRow.map Field.dispose ∧
    (∀ g ∈ (Input.dispose inp).1.fieldRow, g.disposed = true) ∧
    (∀ c, inp.connection = some c →
      (Input.dispose inp).1.connection = some (Connection.dispose c) ∧
      (Connection.dispose c).disposed = true) ∧
    (inp.connection = none → (Input.dispose inp).1.connection = none) ∧
    (Input.dispose inp).2 =
      (if inp.outlinePath then [Eff.removeNode] else []) ++
        (inp.fieldRow.map Eff.fieldDisposed ++
          (match inp.connection with
           | some _ => [Eff.connDisposed]
           | none => [])) := by
  rcases hc : inp.connection with _ | c <;>
    simp [Input.dispose, hc, Connection.dispose, disposed_dispose,
      List.append_assoc]

/-- C1 amended witness: the concrete disposed input has a nulled block
reference and a disposed but still-referenced connection. -/
theorem dispose_spec_witness :
    (Input.dispose cInput).1.sourceBlock = none ∧
    ((Input.dispose cInput).1.connection =
        some (Connection.dispose cConnection) ∧
      (Connection.dispose cConnection).disposed = true) :=
  ⟨(dispose_spec cInput).1, (dispose_spec cInput).2.2.2.1 cConnection rfl⟩

/-- C9: Grid.update(scale) sets the pattern tile width and height to
spacing*scale, except that a zero product is replaced by 100; with
length_ == 0 the tile is still set and each existing line's computed start
and end coincide (no drawable line length). -/
theorem grid_update_spec (g : Grid) (scale : ℚ) :
    (g.update scale).gridPattern.width =
      some (if g.spacing * scale = 0 then 100 else g.spacing * scale) ∧
    (g.update scale).gridPattern.height =
      some (if g.spacing * scale = 0 then 100 else g.spacing * scale) ∧
    (g.length = 0 →
      (∀ l, (g.update scale).line1 = some l → l.x1 = l.x2) ∧
      (∀ l, (g.update scale).line2 = some l → l.y1 = l.y2)) := by
  refine ⟨rfl, rfl, ?_⟩
  intro hlen
  constructor
  · intro l hl
    rcases h1 : g.line1 with _ | l0
    · simp [Grid.update, setLineAttributes, h1] at hl
    · simp [Grid.update, setLineAttributes, h1] at hl
      subst hl
      simp [hlen]
  · intro l hl
    rcases h2 : g.line2 with _ | l0
    · simp [Grid.update, setLineAttributes, h2] at hl
    · simp [Grid.update, setLineAttributes, h2] at hl
      subst hl
      simp [hlen]

/-- C9 witness: the concrete degenerate grid (spacing 0, length 0) at
scale 2 gets the 100 substitution and coinciding line endpoints. -/
theorem grid_update_spec_witness :
    (cGrid.update 2).gridPattern.width =
      some (if cGrid.spacing * 2 = 0 then 100 else cGrid.spacing * 2) ∧
    (∀ l, (cGrid.update 2).line1 = some l → l.x1 = l.x2) := by
  have h := grid_update_spec cGrid 2
  exact ⟨h.1, (h.2.2 rfl).1⟩

end ScratchBlocks
